import Mathlib

/-!
# prisma-mern-mini: the user service and its form UI

A shallow embedding of

* `backend/src/index.js`: the two Express handlers `app.post("/users")` and
  `app.get("/users")`, which delegate to `prisma.user.create` and
  `prisma.user.findMany`;
* `frontend/src/components/UserForm.jsx`: `handleSubmit` and the form markup;
* `frontend/src/App.jsx`: the `refresh` toggle and the `onUserAdded` callback.

Asynchronous code is embedded by explicit state passing: a handler takes the
state of the world before the call and returns how its promise settled
together with the state of the world after it.
-/

namespace PrismaMernMini

/-! ## JavaScript values -/

/-- The JavaScript values that cross the wire or are thrown: what `JSON.parse` can
produce, plus `undefined`. Numbers are the integers: the only falsy one is `0`, and a
fraction would behave as any other non-zero number does. An object is its list of
own properties, the first binding of a key being the one read. -/
inductive JsVal where
  | undefined : JsVal
  | null : JsVal
  | bool (b : Bool) : JsVal
  | num (n : Int) : JsVal
  | str (s : String) : JsVal
  | arr (items : List JsVal) : JsVal
  | obj (fields : List (String × JsVal)) : JsVal

namespace JsVal

/-- JavaScript truthiness (`ToBoolean`), which decides `a || b`. -/
def truthy : JsVal → Bool
  | undefined => false
  | null => false
  | bool b => b
  | num n => n != 0
  | str s => s != ""
  | arr _ => true
  | obj _ => true

/-- Whether the value is `null` or `undefined`. -/
def isNullish : JsVal → Bool
  | undefined => true
  | null => true
  | _ => false

/-- Reading property `k` of a value that is not nullish. Only the keys `response`,
`data`, `message`, `id`, `name` and `email` are ever read, and none of them is a
built-in property of a primitive or of an array, so those read as `undefined`. -/
def get (v : JsVal) (k : String) : JsVal :=
  match v with
  | obj fields => (fields.lookup k).getD undefined
  | _ => undefined

/-- The value thrown by a property read on `null` or `undefined`. -/
def typeError : JsVal :=
  obj [("name", str "TypeError"), ("message", str "Cannot read properties of undefined")]

/-- The member access `v.k`: throws a `TypeError` when `v` is nullish. -/
def member (v : JsVal) (k : String) : Except JsVal JsVal :=
  if v.isNullish then .error typeError else .ok (v.get k)

/-- The optional chain `v?.k`: `undefined` when `v` is nullish. -/
def optMember (v : JsVal) (k : String) : JsVal :=
  if v.isNullish then undefined else v.get k

/-- The operator `a || b`. -/
def or (a b : JsVal) : JsVal :=
  if a.truthy then a else b

mutual
/-- The string JavaScript makes of a value (`ToString`): the text `alert(v)` shows.
An array is its elements joined by commas, a plain object is `[object Object]`, and
an integer is its decimal numeral. -/
def toText : JsVal → String
  | undefined => "undefined"
  | null => "null"
  | bool b => if b then "true" else "false"
  | num n => toString n
  | str s => s
  | arr items => joinText items
  | obj _ => "[object Object]"
/-- The elements of an array joined by commas (`Array.prototype.join`): `null` and
`undefined` elements give the empty string, every other element its `toText`. -/
def joinText : List JsVal → String
  | [] => ""
  | x :: rest =>
      (match x with
        | undefined => ""
        | null => ""
        | y => toText y)
        ++ (match rest with
          | [] => ""
          | _ :: _ => ",")
        ++ joinText rest
end

end JsVal

/-! ## Backend: `backend/src/index.js` -/

/-- The argument of `prisma.user.create`: the object `{ data: ... }`. -/
structure CreateArgs where
  data : JsVal

/-- The part of the Prisma client the service uses, `prisma.user`, over a store state
`σ` and store errors `ε`. The client is a dependency of the service, so the handlers
are embedded over an arbitrary one. `create` settles with the created record or
rejects, and may change the store; `findMany` is a read. -/
structure UserDelegate (σ ε : Type) where
  create : CreateArgs → σ → Except ε JsVal × σ
  findMany : σ → Except ε JsVal

/-- A call the service made on `prisma.user`. -/
inductive StoreCall where
  | create (args : CreateArgs) : StoreCall
  | findMany : StoreCall

/-- The HTTP method of a request. -/
inductive Method where
  | GET : Method
  | POST : Method

/-- The Express request object `req`, with the body as parsed by `express.json()`. -/
structure Request where
  method : Method
  path : String
  query : List (String × String)
  headers : List (String × String)
  body : JsVal

/-- The Express response object `res`: the status code (200 until changed) and the
JSON body once `res.json` has sent one. -/
structure Res where
  statusCode : Nat
  body : Option JsVal

/-- The response object a handler is given. -/
def Res.fresh : Res := { statusCode := 200, body := none }

/-- The call `res.json(v)`: sends `v` as the JSON body under the current status. -/
def Res.json (res : Res) (v : JsVal) : Res := { res with body := some v }

/-- The world a handler runs in: the store, the calls made on `prisma.user` so far,
and the response object. -/
structure Ctx (σ : Type) where
  db : σ
  calls : List StoreCall
  res : Res

/-- The world at the start of a request. -/
def Ctx.init {σ : Type} (db : σ) : Ctx σ := { db := db, calls := [], res := Res.fresh }

/-- How the promise of an async handler settled. -/
inductive Settled (ε : Type) where
  | resolved : Settled ε
  | rejected (e : ε) : Settled ε

/-- The handler of `app.post("/users", ...)` (index.js:9-12):
`const user = await prisma.user.create({ data: req.body }); res.json(user);`. -/
def postUsers {σ ε : Type} (prisma : UserDelegate σ ε) (req : Request) (c : Ctx σ) :
    Settled ε × Ctx σ :=
  let args : CreateArgs := { data := req.body }
  let r := prisma.create args c.db
  let c1 : Ctx σ := { c with db := r.2, calls := c.calls ++ [StoreCall.create args] }
  match r.1 with
  | .ok user => (.resolved, { c1 with res := c1.res.json user })
  | .error e => (.rejected e, c1)

/-- The handler of `app.get("/users", ...)` (index.js:14-17):
`const users = await prisma.user.findMany(); res.json(users);`. -/
def getUsers {σ ε : Type} (prisma : UserDelegate σ ε) (_req : Request) (c : Ctx σ) :
    Settled ε × Ctx σ :=
  let r := prisma.findMany c.db
  let c1 : Ctx σ := { c with calls := c.calls ++ [StoreCall.findMany] }
  match r with
  | .ok users => (.resolved, { c1 with res := c1.res.json users })
  | .error e => (.rejected e, c1)

/-- What the HTTP client receives. -/
structure ClientResponse where
  status : Nat
  body : Option JsVal

/-- Modelled from the spec: the framework's default error handler, which is part of
Express and not of this repository. An error that propagates out of a handler is
answered with status 500 and no structured body (spec 4.2). -/
def defaultErrorHandler {ε : Type} (_e : ε) : ClientResponse :=
  { status := 500, body := none }

/-- What the client receives once a handler has settled: the response the handler
sent, or the answer of the default error handler when it rejected. -/
def respond {σ ε : Type} (out : Settled ε × Ctx σ) : ClientResponse :=
  match out.1 with
  | .resolved => { status := out.2.res.statusCode, body := out.2.res.body }
  | .rejected e => defaultErrorHandler e

/-- One request served by the service. -/
inductive Invocation where
  | postUsers (req : Request) : Invocation
  | getUsers (req : Request) : Invocation

/-- Serving one request against the store: what the client receives and the store
afterwards. -/
def serve {σ ε : Type} (prisma : UserDelegate σ ε) (inv : Invocation) (db : σ) :
    ClientResponse × σ :=
  match inv with
  | .postUsers req =>
      let out := postUsers prisma req (Ctx.init db)
      (respond out, out.2.db)
  | .getUsers req =>
      let out := getUsers prisma req (Ctx.init db)
      (respond out, out.2.db)

/-- Serving a sequence of requests one after the other. -/
def serveAll {σ ε : Type} (prisma : UserDelegate σ ε) :
    List Invocation → σ → List ClientResponse × σ
  | [], db => ([], db)
  | inv :: rest, db =>
      let r := serve prisma inv db
      let rs := serveAll prisma rest r.2
      (r.1 :: rs.1, rs.2)

/-- The record a request created, read off its response: the body of a 200 answer to
a `POST /users`. -/
def createdBy (inv : Invocation) (resp : ClientResponse) : Option JsVal :=
  match inv with
  | .postUsers _ => if resp.status = 200 then resp.body else none
  | .getUsers _ => none

/-- The records that the successful `POST /users` among `invs` returned, in order. -/
def createdRecords {σ ε : Type} (prisma : UserDelegate σ ε) :
    List Invocation → σ → List JsVal
  | [], _ => []
  | inv :: rest, db =>
      let r := serve prisma inv db
      (createdBy inv r.1).toList ++ createdRecords prisma rest r.2

/-! ## The Record Store -/

/-- The body `{ name, email }`, as the form sends it (UserForm.jsx:11). -/
def userInput (name email : String) : JsVal :=
  .obj [("name", .str name), ("email", .str email)]

/-- Modelled from the spec: the contract of the Record Store (spec 3 and 4.1), which
is the Prisma client over the relational table and is not part of the source.
`rows` is the content of the table. `create` inserts exactly one row and returns it,
no row is ever updated or deleted, `findMany` returns every row in some order, the
returned record carries an identifier that no earlier row has, and it echoes the
`name` and `email` of the data it was given. -/
structure StoreContract {σ ε : Type} (prisma : UserDelegate σ ε) (rows : σ → List JsVal) :
    Prop where
  create_inserts : ∀ args db u db1, prisma.create args db = (.ok u, db1) →
    (rows db1).Perm (u :: rows db)
  create_keeps : ∀ args db r, r ∈ rows db → r ∈ rows (prisma.create args db).2
  findMany_all : ∀ db v, prisma.findMany db = .ok v → ∃ us, v = .arr us ∧ us.Perm (rows db)
  id_present : ∀ args db u db1, prisma.create args db = (.ok u, db1) →
    u.get "id" ≠ .undefined
  id_fresh : ∀ args db u db1, prisma.create args db = (.ok u, db1) →
    ∀ r ∈ rows db, r.get "id" ≠ u.get "id"
  echo : ∀ args db u db1 name email,
    args.data.get "name" = .str name → args.data.get "email" = .str email →
    prisma.create args db = (.ok u, db1) →
    u.get "name" = .str name ∧ u.get "email" = .str email

/-- A row of the user table. -/
structure User where
  id : Nat
  name : String
  email : String

/-- A row as the record the client returns. -/
def User.toJs (u : User) : JsVal :=
  .obj [("id", .num u.id), ("name", .str u.name), ("email", .str u.email)]

/-- The errors of the table store. -/
inductive StoreError where
  | validation : StoreError
  | constraint : StoreError

/-- The identifier given to the next row: one more than the largest in the table. -/
def nextId (rows : List User) : Nat :=
  (rows.map User.id).foldr max 0 + 1

/-- The fields of a create input, when it is an object `{ name, email }` of strings. -/
def decodeInput : JsVal → Option (String × String)
  | .obj [(k1, .str n), (k2, .str m)] =>
      if k1 = "name" ∧ k2 = "email" then some (n, m) else none
  | _ => none

/-- Modelled from the spec: a Record Store as spec 3 and 4.1 describe it, a table
of rows in insertion order. The schema is not part of the source, so the constraints
it puts on a new row are the parameter `accepts`. -/
def tableStore (accepts : String → String → List User → Bool) :
    UserDelegate (List User) StoreError where
  create := fun args rows =>
    match decodeInput args.data with
    | some (n, m) =>
        if accepts n m rows then
          ((Except.ok (User.toJs { id := nextId rows, name := n, email := m })),
            rows ++ [{ id := nextId rows, name := n, email := m }])
        else (.error .constraint, rows)
    | none => (.error .validation, rows)
  findMany := fun rows => .ok (.arr (rows.map User.toJs))

/-- A schema without constraints beyond the column types. -/
def acceptAll : String → String → List User → Bool := fun _ _ _ => true

/-! ## Frontend: `frontend/src/components/UserForm.jsx` -/

/-- The response `axios.post` resolves with. -/
structure AxiosResponse where
  data : JsVal
  status : Nat

/-- The error `axios.post` rejects with; `response` is absent when no answer came. -/
structure AxiosError where
  message : String
  response : Option AxiosResponse

/-- An axios response as a JavaScript object. -/
def AxiosResponse.toJs (r : AxiosResponse) : JsVal :=
  .obj [("data", r.data), ("status", .num r.status)]

/-- An axios error as the JavaScript object the `catch` clause receives. -/
def AxiosError.toJs (e : AxiosError) : JsVal :=
  .obj [("name", .str "AxiosError"), ("message", .str e.message),
    ("response", match e.response with
      | none => .undefined
      | some r => r.toJs)]

/-- The network as `axios.post(url, body)` sees it. -/
abbrev Network := String → JsVal → Except AxiosError AxiosResponse

/-- The local state of the form: `useState("")` twice (UserForm.jsx:5-6). -/
structure FormState where
  name : String
  email : String

/-- The form as first rendered. -/
def FormState.init : FormState := { name := "", email := "" }

/-- What the form does, in order: calls on the event, the network, the parent, its
own state setters and the window. -/
inductive Effect where
  | preventDefault : Effect
  | post (url : String) (body : JsVal) : Effect
  | onUserAdded (data : JsVal) : Effect
  | setName (value : String) : Effect
  | setEmail (value : String) : Effect
  | alert (message : JsVal) : Effect

/-- Whether the effect is a request sent over the network. -/
def Effect.isPost : Effect → Bool
  | .post _ _ => true
  | _ => false

/-- Whether the effect is a call of the parent callback. -/
def Effect.isNotification : Effect → Bool
  | .onUserAdded _ => true
  | _ => false

/-- Whether the effect is a state update of a field, `setName` or `setEmail`. -/
def Effect.isSetField : Effect → Bool
  | .setName _ => true
  | .setEmail _ => true
  | _ => false

/-- Whether the effect is an alert. -/
def Effect.isAlert : Effect → Bool
  | .alert _ => true
  | _ => false

/-- The outcome of one `handleSubmit`: the form state, the parent state, the effects
performed, and how the promise settled. -/
structure SubmitRun (π : Type) where
  form : FormState
  parent : π
  effects : List Effect
  settled : Settled JsVal

/-- The fallback text of the alert (UserForm.jsx:16). -/
def fallbackMessage : JsVal := .str "Error adding user"

/-- The expression `err.response?.data?.message` (UserForm.jsx:16). -/
def serverMessage (err : JsVal) : Except JsVal JsVal :=
  match err.member "response" with
  | .error e => .error e
  | .ok response => .ok ((response.optMember "data").optMember "message")

/-- The `catch (err)` clause of `handleSubmit` (UserForm.jsx:15-17):
`alert(err.response?.data?.message || "Error adding user")`. -/
def catchClause {π : Type} (form : FormState) (parent : π) (effects : List Effect)
    (err : JsVal) : SubmitRun π :=
  match serverMessage err with
  | .error e => { form := form, parent := parent, effects := effects, settled := .rejected e }
  | .ok message =>
      { form := form, parent := parent,
        effects := effects ++ [Effect.alert (message.or fallbackMessage)],
        settled := .resolved }

/-- The submit handler of the form (UserForm.jsx:8-18). `API_URL` is the value of
`process.env.API_URL`, `axiosPost` the network, `onUserAdded` the prop of that name:
a function on the parent's state that may throw. -/
def handleSubmit {π : Type} (API_URL : String) (axiosPost : Network)
    (onUserAdded : JsVal → π → Except JsVal π) (form : FormState) (parent : π) :
    SubmitRun π :=
  let url := API_URL ++ "/users"
  let body := userInput form.name form.email
  let sent := [Effect.preventDefault, Effect.post url body]
  match axiosPost url body with
  | .ok res =>
      match onUserAdded res.data parent with
      | .ok parent1 =>
          { form := { name := "", email := "" }, parent := parent1,
            effects := sent ++ [Effect.onUserAdded res.data, Effect.setName "",
              Effect.setEmail ""],
            settled := .resolved }
      | .error thrown => catchClause form parent (sent ++ [Effect.onUserAdded res.data]) thrown
  | .error err => catchClause form parent sent err.toJs

/-- The `type` attribute of an input. -/
inductive InputType where
  | text : InputType
  | email : InputType

/-- An input element of the form, as far as validation looks at it. -/
structure InputEl where
  type : InputType
  required : Bool
  value : String

/-- The two controlled inputs of the form markup (UserForm.jsx:22-35). -/
def UserForm.inputs (form : FormState) : List InputEl :=
  [{ type := .text, required := true, value := form.name },
   { type := .email, required := true, value := form.email }]

/-- Modelled from the spec: the browser's native validation of one input, which is
not part of the source. A required input with an empty value is invalid (spec 8);
`typeOk` is the browser's check of the value against the input type. -/
def InputEl.valid (typeOk : InputType → String → Bool) (i : InputEl) : Bool :=
  !(i.required && i.value == "") && typeOk i.type i.value

/-- Modelled from the spec: a user's attempt to submit the form. The browser fires
the submit event, and so runs `handleSubmit` (UserForm.jsx:21), only when every input
is valid; otherwise the submission is blocked and nothing runs. -/
def requestSubmit {π : Type} (typeOk : InputType → String → Bool) (API_URL : String)
    (axiosPost : Network) (onUserAdded : JsVal → π → Except JsVal π) (form : FormState)
    (parent : π) : SubmitRun π :=
  if (UserForm.inputs form).all (InputEl.valid typeOk) then
    handleSubmit API_URL axiosPost onUserAdded form parent
  else
    { form := form, parent := parent, effects := [], settled := .resolved }

/-! ## Frontend: `frontend/src/App.jsx` -/

/-- The state of `App`: `const [refresh, setRefresh] = useState(false)` (App.jsx:6). -/
structure AppState where
  refresh : Bool

/-- The state of `App` when it mounts. -/
def App.init : AppState := { refresh := false }

/-- The update `setRefresh((r) => !r)`. -/
def App.setRefresh (f : Bool → Bool) (s : AppState) : AppState :=
  { refresh := f s.refresh }

/-- The prop `onUserAdded={() => setRefresh((r) => !r)}` (App.jsx:11): it ignores
its argument and never throws. -/
def App.onUserAdded (_data : JsVal) (s : AppState) : Except JsVal AppState :=
  .ok (App.setRefresh (fun r => !r) s)

/-- The key of the list, `key={refresh}` (App.jsx:12), as the string React makes of
it. -/
def App.listKey (s : AppState) : String :=
  if s.refresh then "true" else "false"

/-- The state of the page: `App` and the form inside it. -/
structure UiState where
  app : AppState
  form : FormState

/-- The page when it mounts. -/
def UiState.init : UiState := { app := App.init, form := FormState.init }

/-- What can happen on the page: typing into either input (the `onChange` handlers,
UserForm.jsx:26 and 33) and an attempt to submit, with the network it will meet. -/
inductive UiEvent where
  | changeName (value : String) : UiEvent
  | changeEmail (value : String) : UiEvent
  | submit (axiosPost : Network) : UiEvent

/-- One event on the page: the state after it and the effects of the form. -/
def uiStep (typeOk : InputType → String → Bool) (API_URL : String) (ev : UiEvent)
    (s : UiState) : UiState × List Effect :=
  match ev with
  | .changeName v => ({ s with form := { s.form with name := v } }, [Effect.setName v])
  | .changeEmail v => ({ s with form := { s.form with email := v } }, [Effect.setEmail v])
  | .submit axiosPost =>
      let r := requestSubmit typeOk API_URL axiosPost App.onUserAdded s.form s.app
      ({ app := r.parent, form := r.form }, r.effects)

/-- A sequence of events on the page, with all effects in order. -/
def uiRun (typeOk : InputType → String → Bool) (API_URL : String) :
    List UiEvent → UiState → UiState × List Effect
  | [], s => (s, [])
  | ev :: rest, s =>
      let r := uiStep typeOk API_URL ev s
      let rs := uiRun typeOk API_URL rest r.1
      (rs.1, r.2 ++ rs.2)

/-- The refresh toggle after `k` successful-add notifications. -/
def App.afterNotifications : Nat → AppState
  | 0 => App.init
  | k + 1 =>
      match App.onUserAdded .undefined (App.afterNotifications k) with
      | .ok s => s
      | .error _ => App.afterNotifications k

/-- The message the server provided with a failed request, `err.response.data.message`
read through the optional chain: `undefined` when there is no response, when its data
is nullish, or when the data has no `message`. -/
def AxiosError.serverMessage (e : AxiosError) : JsVal :=
  match e.response with
  | none => .undefined
  | some r => r.data.optMember "message"

/-- The message a thrown value carries, `thrown.response?.data?.message`, for a thrown
value that is not nullish. -/
def thrownMessage (thrown : JsVal) : JsVal :=
  ((thrown.get "response").optMember "data").optMember "message"

/-! ## Sample inputs -/

/-- The request `POST /users` with body `{ name, email }`. -/
def postRequest (name email : String) : Request :=
  { method := .POST, path := "/users", query := [], headers := [], body := userInput name email }

/-- The request `GET /users`. -/
def getRequest : Request :=
  { method := .GET, path := "/users", query := [], headers := [], body := .undefined }

/-- The record of Ada with identifier 1. -/
def adaRecord : JsVal := User.toJs { id := 1, name := "Ada", email := "ada@x.com" }

/-- The record of Grace with identifier 2. -/
def graceRecord : JsVal := User.toJs { id := 2, name := "Grace", email := "grace@x.com" }

/-- A store that is down: every call rejects. -/
def downStore : UserDelegate Unit StoreError where
  create := fun _ db => (.error .constraint, db)
  findMany := fun _ => .error .constraint

/-- A form holding Ada. -/
def adaForm : FormState := { name := "Ada", email := "ada@x.com" }

/-- A network on which the create succeeds with Ada's record. -/
def netCreated : Network := fun _ _ => .ok { data := adaRecord, status := 200 }

/-- A network on which the create is answered 500 with a message. -/
def netRejected : Network := fun _ _ =>
  .error { message := "Request failed with status code 500",
           response := some { data := .obj [("message", .str "Email taken")], status := 500 } }

/-- A network on which the create is answered 500 with an empty array as message. -/
def netRejectedEmpty : Network := fun _ _ =>
  .error { message := "Request failed with status code 500",
           response := some { data := .obj [("message", .arr [])], status := 500 } }

/-- A parent callback that throws a value carrying a response message. -/
def throwingCallback : JsVal → Unit → Except JsVal Unit := fun _ _ =>
  .error (.obj [("response", .obj [("data", .obj [("message", .str "boom")])])])

/-- A browser type check that accepts every value. -/
def anyType : InputType → String → Bool := fun _ _ => true

end PrismaMernMini

namespace PrismaMernMini

/-! ## The handlers -/

theorem postUsers_calls {σ ε : Type} (prisma : UserDelegate σ ε) (req : Request) (c : Ctx σ) :
    (postUsers prisma req c).2.calls = c.calls ++ [StoreCall.create { data := req.body }] ∧
    (postUsers prisma req c).2.db = (prisma.create { data := req.body } c.db).2 := by
  unfold postUsers
  cases h : (prisma.create { data := req.body } c.db).1 <;> simp [h]

theorem postUsers_ok {σ ε : Type} (prisma : UserDelegate σ ε) (req : Request) (c : Ctx σ)
    (u : JsVal) (h : (prisma.create { data := req.body } c.db).1 = .ok u) :
    (postUsers prisma req c).1 = .resolved ∧
    (postUsers prisma req c).2.res = c.res.json u := by
  unfold postUsers
  simp [h]

theorem postUsers_error {σ ε : Type} (prisma : UserDelegate σ ε) (req : Request) (c : Ctx σ)
    (e : ε) (h : (prisma.create { data := req.body } c.db).1 = .error e) :
    (postUsers prisma req c).1 = .rejected e ∧ (postUsers prisma req c).2.res = c.res := by
  unfold postUsers
  simp [h]

theorem getUsers_calls {σ ε : Type} (prisma : UserDelegate σ ε) (req : Request) (c : Ctx σ) :
    (getUsers prisma req c).2.calls = c.calls ++ [StoreCall.findMany] ∧
    (getUsers prisma req c).2.db = c.db := by
  unfold getUsers
  cases h : prisma.findMany c.db <;> simp

theorem getUsers_ok {σ ε : Type} (prisma : UserDelegate σ ε) (req : Request) (c : Ctx σ)
    (users : JsVal) (h : prisma.findMany c.db = .ok users) :
    (getUsers prisma req c).1 = .resolved ∧
    (getUsers prisma req c).2.res = c.res.json users := by
  unfold getUsers
  simp [h]

theorem respond_resolved {σ ε : Type} (out : Settled ε × Ctx σ) (h : out.1 = .resolved) :
    respond out = { status := out.2.res.statusCode, body := out.2.res.body } := by
  unfold respond
  simp [h]

theorem respond_rejected {σ ε : Type} (out : Settled ε × Ctx σ) (e : ε)
    (h : out.1 = .rejected e) : respond out = { status := 500, body := none } := by
  unfold respond
  simp [h, defaultErrorHandler]

/-- C1: for every request body and every store state, the `POST /users` handler calls
`prisma.user.create` exactly once, with `data` equal to the request body as received
and on the store as it found it; when that call returns a record `u`, the handler
resolves having sent exactly `u` as JSON under the default status 200, and that is
what the client receives. -/
theorem postUsers_forwards_body {σ ε : Type} (prisma : UserDelegate σ ε) (req : Request)
    (db : σ) :
    (postUsers prisma req (Ctx.init db)).2.calls = [StoreCall.create { data := req.body }] ∧
    (postUsers prisma req (Ctx.init db)).2.db = (prisma.create { data := req.body } db).2 ∧
    ∀ u, (prisma.create { data := req.body } db).1 = .ok u →
      (postUsers prisma req (Ctx.init db)).1 = .resolved ∧
      (postUsers prisma req (Ctx.init db)).2.res = { statusCode := 200, body := some u } ∧
      respond (postUsers prisma req (Ctx.init db)) = { status := 200, body := some u } := by
  have hc := postUsers_calls prisma req (Ctx.init db)
  refine ⟨by simpa [Ctx.init] using hc.1, by simpa [Ctx.init] using hc.2, ?_⟩
  intro u hu
  have ho := postUsers_ok prisma req (Ctx.init db) u (by simpa [Ctx.init] using hu)
  have hres : (postUsers prisma req (Ctx.init db)).2.res = { statusCode := 200, body := some u } := by
    rw [ho.2]; rfl
  refine ⟨ho.1, hres, ?_⟩
  rw [respond_resolved _ ho.1, hres]

/-- Witness of C1: on the table store, posting Ada to the empty table is answered 200
with Ada's record. -/
theorem postUsers_forwards_body_witness :
    ((tableStore acceptAll).create { data := (postRequest "Ada" "ada@x.com").body } []).1
        = .ok adaRecord ∧
      respond (postUsers (tableStore acceptAll) (postRequest "Ada" "ada@x.com") (Ctx.init []))
        = { status := 200, body := some adaRecord } :=
  ⟨rfl, ((postUsers_forwards_body (tableStore acceptAll) (postRequest "Ada" "ada@x.com") []).2.2
    adaRecord rfl).2.2⟩

/-- C2: for every request and every store state, the `GET /users` handler makes one
call on the store, `findMany`, and none to `create`; it leaves the store as it found
it; its outcome is the same for any two requests; and when `findMany` returns `users`
the handler resolves having sent exactly `users` as JSON under status 200, which is
what the client receives. -/
theorem getUsers_returns_findMany {σ ε : Type} (prisma : UserDelegate σ ε)
    (req other : Request) (db : σ) :
    (getUsers prisma req (Ctx.init db)).2.calls = [StoreCall.findMany] ∧
    (getUsers prisma req (Ctx.init db)).2.db = db ∧
    (serve prisma (.getUsers req) db).2 = db ∧
    getUsers prisma req (Ctx.init db) = getUsers prisma other (Ctx.init db) ∧
    ∀ users, prisma.findMany db = .ok users →
      (getUsers prisma req (Ctx.init db)).1 = .resolved ∧
      (getUsers prisma req (Ctx.init db)).2.res = { statusCode := 200, body := some users } ∧
      respond (getUsers prisma req (Ctx.init db)) = { status := 200, body := some users } := by
  have hc := getUsers_calls prisma req (Ctx.init db)
  refine ⟨by simpa [Ctx.init] using hc.1, by simpa [Ctx.init] using hc.2,
    by simpa [serve, Ctx.init] using hc.2, rfl, ?_⟩
  intro users hu
  have ho := getUsers_ok prisma req (Ctx.init db) users (by simpa [Ctx.init] using hu)
  have hres : (getUsers prisma req (Ctx.init db)).2.res
      = { statusCode := 200, body := some users } := by
    rw [ho.2]; rfl
  refine ⟨ho.1, hres, ?_⟩
  rw [respond_resolved _ ho.1, hres]

/-- Witness of C2: on a table holding Ada and Grace, the list request is answered 200
with both records in the order the store returned them. -/
theorem getUsers_returns_findMany_witness :
    (tableStore acceptAll).findMany
        [{ id := 1, name := "Ada", email := "ada@x.com" },
         { id := 2, name := "Grace", email := "grace@x.com" }]
        = .ok (.arr [adaRecord, graceRecord]) ∧
      respond (getUsers (tableStore acceptAll) getRequest
        (Ctx.init [{ id := 1, name := "Ada", email := "ada@x.com" },
          { id := 2, name := "Grace", email := "grace@x.com" }]))
        = { status := 200, body := some (.arr [adaRecord, graceRecord]) } :=
  ⟨rfl, ((getUsers_returns_findMany (tableStore acceptAll) getRequest
    (postRequest "Ada" "ada@x.com")
    [{ id := 1, name := "Ada", email := "ada@x.com" },
     { id := 2, name := "Grace", email := "grace@x.com" }]).2.2.2.2
    (.arr [adaRecord, graceRecord]) rfl).2.2⟩

/-- C5: when `prisma.user.create` rejects with `e`, the `POST /users` handler rejects
with the same `e`: the response object is as it was handed over, nothing sent; the
one store call is the create; and the client receives status 500 from the default
error handler. The handler rejects with `e` exactly when the create rejects with
`e`. -/
theorem postUsers_store_error {σ ε : Type} (prisma : UserDelegate σ ε) (req : Request)
    (db : σ) :
    (∀ e, (prisma.create { data := req.body } db).1 = .error e →
      (postUsers prisma req (Ctx.init db)).1 = .rejected e ∧
      (postUsers prisma req (Ctx.init db)).2.res = Res.fresh ∧
      (postUsers prisma req (Ctx.init db)).2.res.body = none ∧
      (postUsers prisma req (Ctx.init db)).2.calls = [StoreCall.create { data := req.body }] ∧
      respond (postUsers prisma req (Ctx.init db)) = defaultErrorHandler e ∧
      (respond (postUsers prisma req (Ctx.init db))).status = 500) ∧
    (∀ e, (postUsers prisma req (Ctx.init db)).1 = .rejected e ↔
      (prisma.create { data := req.body } db).1 = .error e) := by
  have hc := postUsers_calls prisma req (Ctx.init db)
  constructor
  · intro e he
    have ho := postUsers_error prisma req (Ctx.init db) e (by simpa [Ctx.init] using he)
    have hres : (postUsers prisma req (Ctx.init db)).2.res = Res.fresh := by
      rw [ho.2]; rfl
    refine ⟨ho.1, hres, by rw [hres]; rfl, by simpa [Ctx.init] using hc.1, ?_, ?_⟩
    · rw [respond_rejected _ e ho.1]; rfl
    · rw [respond_rejected _ e ho.1]
  · intro e
    constructor
    · intro h
      cases hr : (prisma.create { data := req.body } db).1 with
      | ok u =>
          have ho := postUsers_ok prisma req (Ctx.init db) u (by simpa [Ctx.init] using hr)
          rw [ho.1] at h
          cases h
      | error e1 =>
          have ho := postUsers_error prisma req (Ctx.init db) e1 (by simpa [Ctx.init] using hr)
          rw [ho.1] at h
          cases h
          rfl
    · intro he
      exact (postUsers_error prisma req (Ctx.init db) e (by simpa [Ctx.init] using he)).1

/-- Witness of C5: on a store that is down, the create request is answered 500. -/
theorem postUsers_store_error_witness :
    (downStore.create { data := (postRequest "Ada" "ada@x.com").body } ()).1
        = .error StoreError.constraint ∧
      (respond (postUsers downStore (postRequest "Ada" "ada@x.com") (Ctx.init ()))).status
        = 500 :=
  ⟨rfl, ((postUsers_store_error downStore (postRequest "Ada" "ada@x.com") ()).1
    StoreError.constraint rfl).2.2.2.2.2⟩

/-! ## Serving requests over a store that keeps the contract -/

theorem serve_post_ok {σ ε : Type} (prisma : UserDelegate σ ε) (req : Request) (db db1 : σ)
    (u : JsVal) (h : prisma.create { data := req.body } db = (.ok u, db1)) :
    serve prisma (.postUsers req) db = ({ status := 200, body := some u }, db1) := by
  have h1 : (prisma.create { data := req.body } db).1 = .ok u := by rw [h]
  have h2 : (prisma.create { data := req.body } db).2 = db1 := by rw [h]
  have hc := postUsers_calls prisma req (Ctx.init db)
  have ho := postUsers_ok prisma req (Ctx.init db) u (by simpa [Ctx.init] using h1)
  have hr := respond_resolved _ ho.1
  rw [ho.2] at hr
  simp only [serve]
  rw [hr, hc.2]
  simp [Ctx.init, Res.json, Res.fresh, h2]

theorem serve_post_error {σ ε : Type} (prisma : UserDelegate σ ε) (req : Request) (db : σ)
    (e : ε) (h : (prisma.create { data := req.body } db).1 = .error e) :
    serve prisma (.postUsers req) db
      = ({ status := 500, body := none }, (prisma.create { data := req.body } db).2) := by
  have hc := postUsers_calls prisma req (Ctx.init db)
  have ho := postUsers_error prisma req (Ctx.init db) e (by simpa [Ctx.init] using h)
  simp only [serve]
  rw [respond_rejected _ e ho.1, hc.2]
  simp [Ctx.init]

theorem serve_post_db {σ ε : Type} (prisma : UserDelegate σ ε) (req : Request) (db : σ) :
    (serve prisma (.postUsers req) db).2 = (prisma.create { data := req.body } db).2 := by
  have hc := postUsers_calls prisma req (Ctx.init db)
  simpa [serve, Ctx.init] using hc.2

theorem serve_get_db {σ ε : Type} (prisma : UserDelegate σ ε) (req : Request) (db : σ) :
    (serve prisma (.getUsers req) db).2 = db := by
  have hc := getUsers_calls prisma req (Ctx.init db)
  simpa [serve, Ctx.init] using hc.2

theorem serve_get_ok {σ ε : Type} (prisma : UserDelegate σ ε) (req : Request) (db : σ)
    (v : JsVal) (h : prisma.findMany db = .ok v) :
    serve prisma (.getUsers req) db = ({ status := 200, body := some v }, db) := by
  have hc := getUsers_calls prisma req (Ctx.init db)
  have ho := getUsers_ok prisma req (Ctx.init db) v (by simpa [Ctx.init] using h)
  have hr := respond_resolved _ ho.1
  rw [ho.2] at hr
  simp only [serve]
  rw [hr, hc.2]
  simp [Ctx.init, Res.json, Res.fresh]

/-- A request created `u` exactly when it is a `POST /users` whose create returned
`u`. -/
theorem createdBy_serve {σ ε : Type} (prisma : UserDelegate σ ε) (inv : Invocation) (db : σ)
    (u : JsVal) (h : createdBy inv (serve prisma inv db).1 = some u) :
    ∃ req, inv = .postUsers req ∧
      prisma.create { data := req.body } db = (.ok u, (serve prisma inv db).2) := by
  cases inv with
  | getUsers req => simp [createdBy] at h
  | postUsers req =>
      refine ⟨req, rfl, ?_⟩
      cases hr : (prisma.create { data := req.body } db).1 with
      | error e =>
          rw [serve_post_error prisma req db e hr] at h
          simp [createdBy] at h
      | ok u1 =>
          have hp : prisma.create { data := req.body } db
              = (.ok u1, (prisma.create { data := req.body } db).2) := by
            rw [← hr]
          rw [serve_post_ok prisma req db _ u1 hp] at h
          simp [createdBy] at h
          rw [serve_post_db, ← h, ← hr]

theorem rows_serve {σ ε : Type} {prisma : UserDelegate σ ε} {rows : σ → List JsVal}
    (hc : StoreContract prisma rows) (inv : Invocation) (db : σ) (r : JsVal)
    (hr : r ∈ rows db) : r ∈ rows (serve prisma inv db).2 := by
  cases inv with
  | getUsers req => rw [serve_get_db]; exact hr
  | postUsers req => rw [serve_post_db]; exact hc.create_keeps _ db r hr

theorem rows_serveAll {σ ε : Type} {prisma : UserDelegate σ ε} {rows : σ → List JsVal}
    (hc : StoreContract prisma rows) (invs : List Invocation) (db : σ) (r : JsVal)
    (hr : r ∈ rows db) : r ∈ rows (serveAll prisma invs db).2 := by
  induction invs generalizing db with
  | nil => exact hr
  | cons inv rest ih =>
      simp only [serveAll]
      exact ih _ (rows_serve hc inv db r hr)

/-- Every record a run created is in the table at the end of the run. -/
theorem created_mem_rows {σ ε : Type} {prisma : UserDelegate σ ε} {rows : σ → List JsVal}
    (hc : StoreContract prisma rows) (invs : List Invocation) (db : σ) (u : JsVal)
    (hu : u ∈ createdRecords prisma invs db) : u ∈ rows (serveAll prisma invs db).2 := by
  induction invs generalizing db with
  | nil => simp [createdRecords] at hu
  | cons inv rest ih =>
      simp only [createdRecords, List.mem_append, Option.mem_toList, Option.mem_def] at hu
      simp only [serveAll]
      rcases hu with hu | hu
      · obtain ⟨req, _, hcr⟩ := createdBy_serve prisma inv db u hu
        have hp := hc.create_inserts _ _ _ _ hcr
        exact rows_serveAll hc rest _ u (hp.symm.subset (List.mem_cons_self _ _))
      · exact ih _ hu

/-- Every record a run created has an identifier that no row had before the run. -/
theorem created_fresh {σ ε : Type} {prisma : UserDelegate σ ε} {rows : σ → List JsVal}
    (hc : StoreContract prisma rows) (invs : List Invocation) (db : σ) (u : JsVal)
    (hu : u ∈ createdRecords prisma invs db) (r : JsVal) (hr : r ∈ rows db) :
    r.get "id" ≠ u.get "id" := by
  induction invs generalizing db with
  | nil => simp [createdRecords] at hu
  | cons inv rest ih =>
      simp only [createdRecords, List.mem_append, Option.mem_toList, Option.mem_def] at hu
      rcases hu with hu | hu
      · obtain ⟨req, _, hcr⟩ := createdBy_serve prisma inv db u hu
        exact hc.id_fresh _ _ _ _ hcr r hr
      · exact ih _ hu (rows_serve hc inv db r hr)

/-- The records a run created have pairwise different identifiers. -/
theorem created_pairwise {σ ε : Type} {prisma : UserDelegate σ ε} {rows : σ → List JsVal}
    (hc : StoreContract prisma rows) (invs : List Invocation) (db : σ) :
    (createdRecords prisma invs db).Pairwise (fun a b => a.get "id" ≠ b.get "id") := by
  induction invs generalizing db with
  | nil => simp [createdRecords]
  | cons inv rest ih =>
      simp only [createdRecords]
      rw [List.pairwise_append]
      refine ⟨?_, ih _, ?_⟩
      · cases createdBy inv (serve prisma inv db).1 <;> simp
      · intro a ha b hb
        simp only [Option.mem_toList, Option.mem_def] at ha
        obtain ⟨req, _, hcr⟩ := createdBy_serve prisma inv db a ha
        have hp := hc.create_inserts _ _ _ _ hcr
        exact created_fresh hc rest _ b hb a (hp.symm.subset (List.mem_cons_self _ _))

/-! ## The table store keeps the contract -/

theorem toJs_get_id (u : User) : (User.toJs u).get "id" = .num u.id := rfl

theorem toJs_get_name (u : User) : (User.toJs u).get "name" = .str u.name := rfl

theorem toJs_get_email (u : User) : (User.toJs u).get "email" = .str u.email := rfl

theorem decodeInput_get (d : JsVal) (n m : String) (h : decodeInput d = some (n, m)) :
    d.get "name" = .str n ∧ d.get "email" = .str m := by
  unfold decodeInput at h
  split at h
  · split at h
    · rename_i hk
      obtain ⟨h1, h2⟩ := hk
      subst h1 h2
      cases h
      exact ⟨rfl, rfl⟩
    · cases h
  · cases h

theorem id_lt_nextId (rows : List User) (x : User) (hx : x ∈ rows) : x.id < nextId rows := by
  unfold nextId
  induction rows with
  | nil => simp at hx
  | cons y rest ih =>
      simp only [List.map_cons, List.foldr_cons]
      rcases List.mem_cons.mp hx with h | h
      · subst h
        omega
      · have := ih h
        omega

theorem tableStore_create_cases (accepts : String → String → List User → Bool)
    (args : CreateArgs) (rows : List User) :
    (∃ e, (tableStore accepts).create args rows = (.error e, rows)) ∨
    (∃ n m, decodeInput args.data = some (n, m) ∧
      (tableStore accepts).create args rows
        = (.ok (User.toJs { id := nextId rows, name := n, email := m }),
            rows ++ [{ id := nextId rows, name := n, email := m }])) := by
  unfold tableStore
  cases hd : decodeInput args.data with
  | none => exact Or.inl ⟨.validation, by simp [hd]⟩
  | some nm =>
      obtain ⟨n, m⟩ := nm
      cases ha : accepts n m rows with
      | false => exact Or.inl ⟨.constraint, by simp [hd, ha]⟩
      | true => exact Or.inr ⟨n, m, rfl, by simp [hd, ha]⟩

theorem tableStore_create_ok (accepts : String → String → List User → Bool)
    (args : CreateArgs) (rows db1 : List User) (u : JsVal)
    (h : (tableStore accepts).create args rows = (.ok u, db1)) :
    ∃ n m, decodeInput args.data = some (n, m) ∧
      u = User.toJs { id := nextId rows, name := n, email := m } ∧
      db1 = rows ++ [{ id := nextId rows, name := n, email := m }] := by
  rcases tableStore_create_cases accepts args rows with ⟨e, he⟩ | ⟨n, m, hd, hok⟩
  · rw [he] at h
    cases h
  · rw [hok] at h
    cases h
    exact ⟨n, m, hd, rfl, rfl⟩

/-- The table store keeps the Record Store contract, whatever its constraints. -/
theorem tableStore_contract (accepts : String → String → List User → Bool) :
    StoreContract (tableStore accepts) (fun rows => rows.map User.toJs) where
  create_inserts := by
    intro args db u db1 h
    obtain ⟨n, m, _, hu, hdb⟩ := tableStore_create_ok accepts args db db1 u h
    subst hu hdb
    simp only [List.map_append, List.map_cons, List.map_nil]
    exact List.perm_append_singleton _ _
  create_keeps := by
    intro args db r hr
    rcases tableStore_create_cases accepts args db with ⟨e, he⟩ | ⟨n, m, _, hok⟩
    · rw [he]; exact hr
    · rw [hok]
      simp only [List.map_append, List.mem_append]
      exact Or.inl hr
  findMany_all := by
    intro db v h
    refine ⟨db.map User.toJs, ?_, List.Perm.refl _⟩
    simp only [tableStore] at h
    cases h
    rfl
  id_present := by
    intro args db u db1 h
    obtain ⟨n, m, _, hu, _⟩ := tableStore_create_ok accepts args db db1 u h
    subst hu
    rw [toJs_get_id]
    simp
  id_fresh := by
    intro args db u db1 h r hr
    obtain ⟨n, m, _, hu, _⟩ := tableStore_create_ok accepts args db db1 u h
    subst hu
    obtain ⟨x, hx, rfl⟩ := List.mem_map.mp hr
    rw [toJs_get_id, toJs_get_id]
    have := id_lt_nextId db x hx
    intro heq
    injection heq with heq
    simp only at heq
    omega
  echo := by
    intro args db u db1 name email hn hm h
    obtain ⟨n, m, hd, hu, _⟩ := tableStore_create_ok accepts _ db db1 u h
    subst hu
    obtain ⟨hn1, hm1⟩ := decodeInput_get args.data n m hd
    rw [hn1] at hn
    rw [hm1] at hm
    rw [toJs_get_name, toJs_get_email]
    exact ⟨hn, hm⟩

/-! ## Created records and listing -/

/-- C3: over a store that keeps the Record Store contract (each inserted row gets an
identifier no earlier row has), a `POST /users` whose body holds the strings `name`
and `email` and whose create returns `u` is answered 200 with `u`, and `u` has an
`id`, and `name` and `email` equal to the input; in any run of requests the records the successful POSTs
returned have pairwise different identifiers, different also from those of the rows
present before the run; in particular two creates in sequence return records with
different identifiers. -/
theorem created_record_echo_unique {σ ε : Type} (prisma : UserDelegate σ ε)
    (rows : σ → List JsVal) (hc : StoreContract prisma rows) (invs : List Invocation)
    (db : σ) :
    (∀ name email req db0 u db1,
      req.body.get "name" = .str name → req.body.get "email" = .str email →
      prisma.create { data := req.body } db0 = (.ok u, db1) →
      serve prisma (.postUsers req) db0 = ({ status := 200, body := some u }, db1) ∧
      u.get "id" ≠ .undefined ∧ u.get "name" = .str name ∧ u.get "email" = .str email) ∧
    (createdRecords prisma invs db).Pairwise (fun a b => a.get "id" ≠ b.get "id") ∧
    (∀ u ∈ createdRecords prisma invs db, ∀ r ∈ rows db, r.get "id" ≠ u.get "id") ∧
    (∀ req1 req2 u1 db1 u2 db2,
      prisma.create { data := req1.body } db = (.ok u1, db1) →
      prisma.create { data := req2.body } db1 = (.ok u2, db2) →
      serveAll prisma [.postUsers req1, .postUsers req2] db
        = ([{ status := 200, body := some u1 }, { status := 200, body := some u2 }], db2) ∧
      u1.get "id" ≠ u2.get "id") := by
  refine ⟨?_, created_pairwise hc invs db, ?_, ?_⟩
  · intro name email req db0 u db1 hn hm hcr
    exact ⟨serve_post_ok prisma req db0 db1 u hcr, hc.id_present _ _ _ _ hcr,
      hc.echo _ db0 u db1 name email hn hm hcr⟩
  · intro u hu r hr
    exact created_fresh hc invs db u hu r hr
  · intro req1 req2 u1 db1 u2 db2 h1 h2
    constructor
    · simp [serveAll, serve_post_ok prisma req1 db db1 u1 h1,
        serve_post_ok prisma req2 db1 db2 u2 h2]
    · have hp := hc.create_inserts _ _ _ _ h1
      exact hc.id_fresh _ _ _ _ h2 u1 (hp.symm.subset (List.mem_cons_self _ _))

/-- Witness of C3: on the table store, creating Ada and then Grace from the empty
table returns the two records, whose identifiers differ. -/
theorem created_record_echo_unique_witness :
    (tableStore acceptAll).create { data := (postRequest "Ada" "ada@x.com").body } []
        = (.ok adaRecord, [{ id := 1, name := "Ada", email := "ada@x.com" }]) ∧
      (tableStore acceptAll).create { data := (postRequest "Grace" "grace@x.com").body }
          [{ id := 1, name := "Ada", email := "ada@x.com" }]
        = (.ok graceRecord, [{ id := 1, name := "Ada", email := "ada@x.com" },
            { id := 2, name := "Grace", email := "grace@x.com" }]) ∧
      (serveAll (tableStore acceptAll)
          [.postUsers (postRequest "Ada" "ada@x.com"),
           .postUsers (postRequest "Grace" "grace@x.com")] []
        = ([{ status := 200, body := some adaRecord },
            { status := 200, body := some graceRecord }],
           [{ id := 1, name := "Ada", email := "ada@x.com" },
            { id := 2, name := "Grace", email := "grace@x.com" }]) ∧
        adaRecord.get "id" ≠ graceRecord.get "id") :=
  ⟨rfl, rfl,
    (created_record_echo_unique (tableStore acceptAll) (fun rows => rows.map User.toJs)
      (tableStore_contract acceptAll) [] []).2.2.2
      (postRequest "Ada" "ada@x.com") (postRequest "Grace" "grace@x.com") adaRecord
      [{ id := 1, name := "Ada", email := "ada@x.com" }] graceRecord
      [{ id := 1, name := "Ada", email := "ada@x.com" },
       { id := 2, name := "Grace", email := "grace@x.com" }] rfl rfl⟩

/-- C4: over a store that keeps the Record Store contract, from every initial store
and after every run of requests, a `GET /users` whose `findMany` returns is answered
200 with an array that contains every record the successful POSTs of the run
returned; and from an empty table, a POST whose create returns `u` followed by a GET
is answered with `u` and then with exactly the one-element array `[u]`. -/
theorem list_contains_created {σ ε : Type} (prisma : UserDelegate σ ε)
    (rows : σ → List JsVal) (hc : StoreContract prisma rows) (invs : List Invocation)
    (db : σ) (req : Request) :
    (∀ v, prisma.findMany (serveAll prisma invs db).2 = .ok v →
      (serve prisma (.getUsers req) (serveAll prisma invs db).2).1
        = { status := 200, body := some v } ∧
      ∃ us, v = .arr us ∧ ∀ u ∈ createdRecords prisma invs db, u ∈ us) ∧
    (∀ reqP u db1 v, rows db = [] →
      prisma.create { data := reqP.body } db = (.ok u, db1) →
      prisma.findMany db1 = .ok v →
      serveAll prisma [.postUsers reqP, .getUsers req] db
        = ([{ status := 200, body := some u }, { status := 200, body := some (.arr [u]) }],
            db1)) := by
  constructor
  · intro v hv
    refine ⟨by rw [serve_get_ok prisma req _ v hv], ?_⟩
    obtain ⟨us, hus, hperm⟩ := hc.findMany_all _ v hv
    refine ⟨us, hus, ?_⟩
    intro u hu
    exact hperm.symm.subset (created_mem_rows hc invs db u hu)
  · intro reqP u db1 v hempty hcr hv
    obtain ⟨us, hus, hperm⟩ := hc.findMany_all _ v hv
    have hp := hc.create_inserts _ _ _ _ hcr
    rw [hempty] at hp
    have hus1 : us = [u] := List.perm_singleton.mp (hperm.trans hp)
    subst hus1
    subst hus
    simp [serveAll, serve_post_ok prisma reqP db db1 u hcr, serve_get_ok prisma req db1 _ hv]

/-- Witness of C4: on the table store, from the empty table, posting Ada and then
listing is answered with Ada's record and then with the array holding just it. -/
theorem list_contains_created_witness :
    (tableStore acceptAll).create { data := (postRequest "Ada" "ada@x.com").body } []
        = (.ok adaRecord, [{ id := 1, name := "Ada", email := "ada@x.com" }]) ∧
      (tableStore acceptAll).findMany [{ id := 1, name := "Ada", email := "ada@x.com" }]
        = .ok (.arr [adaRecord]) ∧
      serveAll (tableStore acceptAll)
          [.postUsers (postRequest "Ada" "ada@x.com"), .getUsers getRequest] []
        = ([{ status := 200, body := some adaRecord },
            { status := 200, body := some (.arr [adaRecord]) }],
           [{ id := 1, name := "Ada", email := "ada@x.com" }]) :=
  ⟨rfl, rfl,
    (list_contains_created (tableStore acceptAll) (fun rows => rows.map User.toJs)
      (tableStore_contract acceptAll) [] [] getRequest).2
      (postRequest "Ada" "ada@x.com") adaRecord
      [{ id := 1, name := "Ada", email := "ada@x.com" }] (.arr [adaRecord]) rfl rfl rfl⟩

/-! ## The form -/

theorem serverMessage_toJs (e : AxiosError) : serverMessage e.toJs = .ok e.serverMessage := by
  obtain ⟨m, r⟩ := e
  cases r <;> rfl

theorem serverMessage_of_not_nullish (thrown : JsVal) (h : thrown.isNullish = false) :
    serverMessage thrown = .ok (thrownMessage thrown) := by
  simp [serverMessage, JsVal.member, h, thrownMessage]

theorem toDigits_ne_nil (n : Nat) : Nat.toDigits 10 n ≠ [] := by
  unfold Nat.toDigits
  simp only [Nat.toDigitsCore]
  split
  · simp
  · intro h
    have hl := Nat.toDigitsCore_lens_eq 10 n (n / 10) (Nat.digitChar (n % 10)) []
    rw [h] at hl
    simp at hl

theorem nat_repr_ne_empty (n : Nat) : n.repr ≠ "" := by
  intro h
  unfold Nat.repr at h
  have h1 : (Nat.toDigits 10 n).asString.data = [] := by rw [h]
  exact toDigits_ne_nil n h1

theorem int_toString_ne_empty (n : Int) : toString n ≠ "" := by
  cases n with
  | ofNat m => simpa [toString, Int.repr] using nat_repr_ne_empty m
  | negSucc m =>
      intro h
      have h1 : (toString (Int.negSucc m)).length = 0 := by rw [h]; rfl
      simp [toString, Int.repr] at h1
      exact absurd h1.1 (by decide)

/-- A truthy value that is not an array has a non-empty string. -/
theorem toText_ne_empty (m : JsVal) (ht : m.truthy = true) (hna : ∀ items, m ≠ .arr items) :
    m.toText ≠ "" := by
  cases m with
  | undefined => simp [JsVal.truthy] at ht
  | null => simp [JsVal.truthy] at ht
  | bool b =>
      simp only [JsVal.truthy] at ht
      subst ht
      simp [JsVal.toText]
  | num n =>
      simp only [JsVal.toText]
      exact int_toString_ne_empty n
  | str s =>
      simp only [JsVal.toText]
      simpa [JsVal.truthy] using ht
  | arr items => exact absurd rfl (hna items)
  | obj fields => simp [JsVal.toText]

/-- The text of `m || "Error adding user"` is empty exactly when `m` is an array whose
string is empty. -/
theorem or_fallback_text_empty_iff (m : JsVal) :
    (m.or fallbackMessage).toText = "" ↔
      ∃ items, m = .arr items ∧ JsVal.joinText items = "" := by
  constructor
  · intro h
    by_cases ht : m.truthy = true
    · have hm : m.or fallbackMessage = m := by simp [JsVal.or, ht]
      rw [hm] at h
      by_contra hne
      refine toText_ne_empty m ht ?_ h
      intro items hi
      subst hi
      exact hne ⟨items, rfl, by simpa [JsVal.toText] using h⟩
    · have hm : m.or fallbackMessage = fallbackMessage := by simp [JsVal.or, ht]
      rw [hm] at h
      simp [fallbackMessage, JsVal.toText] at h
  · rintro ⟨items, rfl, hj⟩
    have hm : (JsVal.arr items).or fallbackMessage = .arr items := by
      simp [JsVal.or, JsVal.truthy]
    rw [hm]
    simpa [JsVal.toText] using hj

/-- The catch clause on a value that is not nullish: one alert, nothing else
changes. -/
theorem catchClause_alert {π : Type} (form : FormState) (parent : π) (effects : List Effect)
    (err : JsVal) (m : JsVal) (h : serverMessage err = .ok m) :
    catchClause form parent effects err
      = { form := form, parent := parent,
          effects := effects ++ [Effect.alert (m.or fallbackMessage)],
          settled := .resolved } := by
  simp [catchClause, h]

theorem catchClause_rethrow {π : Type} (form : FormState) (parent : π)
    (effects : List Effect) (err : JsVal) (e : JsVal) (h : serverMessage err = .error e) :
    catchClause form parent effects err
      = { form := form, parent := parent, effects := effects, settled := .rejected e } := by
  simp [catchClause, h]

theorem handleSubmit_ok_ok {π : Type} (API_URL : String) (axiosPost : Network)
    (onUserAdded : JsVal → π → Except JsVal π) (form : FormState) (parent parent1 : π)
    (res : AxiosResponse)
    (h : axiosPost (API_URL ++ "/users") (userInput form.name form.email) = .ok res)
    (hcb : onUserAdded res.data parent = .ok parent1) :
    handleSubmit API_URL axiosPost onUserAdded form parent
      = { form := { name := "", email := "" }, parent := parent1,
          effects := [Effect.preventDefault,
            Effect.post (API_URL ++ "/users") (userInput form.name form.email),
            Effect.onUserAdded res.data, Effect.setName "", Effect.setEmail ""],
          settled := .resolved } := by
  simp [handleSubmit, h, hcb]

theorem handleSubmit_ok_throw {π : Type} (API_URL : String) (axiosPost : Network)
    (onUserAdded : JsVal → π → Except JsVal π) (form : FormState) (parent : π)
    (res : AxiosResponse) (thrown : JsVal)
    (h : axiosPost (API_URL ++ "/users") (userInput form.name form.email) = .ok res)
    (hcb : onUserAdded res.data parent = .error thrown) :
    handleSubmit API_URL axiosPost onUserAdded form parent
      = catchClause form parent [Effect.preventDefault,
          Effect.post (API_URL ++ "/users") (userInput form.name form.email),
          Effect.onUserAdded res.data] thrown := by
  simp [handleSubmit, h, hcb]

theorem handleSubmit_error {π : Type} (API_URL : String) (axiosPost : Network)
    (onUserAdded : JsVal → π → Except JsVal π) (form : FormState) (parent : π)
    (err : AxiosError)
    (h : axiosPost (API_URL ++ "/users") (userInput form.name form.email) = .error err) :
    handleSubmit API_URL axiosPost onUserAdded form parent
      = { form := form, parent := parent,
          effects := [Effect.preventDefault,
            Effect.post (API_URL ++ "/users") (userInput form.name form.email),
            Effect.alert (err.serverMessage.or fallbackMessage)],
          settled := .resolved } := by
  simp [handleSubmit, h, catchClause, serverMessage_toJs]

/-- Whatever the network and the callback do, `handleSubmit` starts with
`preventDefault` and the one POST, and sends no other. -/
theorem handleSubmit_posts_once {π : Type} (API_URL : String) (axiosPost : Network)
    (onUserAdded : JsVal → π → Except JsVal π) (form : FormState) (parent : π) :
    (handleSubmit API_URL axiosPost onUserAdded form parent).effects.take 2
      = [Effect.preventDefault,
          Effect.post (API_URL ++ "/users") (userInput form.name form.email)] ∧
    (handleSubmit API_URL axiosPost onUserAdded form parent).effects.countP Effect.isPost
      = 1 := by
  cases h : axiosPost (API_URL ++ "/users") (userInput form.name form.email) with
  | error err =>
      rw [handleSubmit_error API_URL axiosPost onUserAdded form parent err h]
      simp [Effect.isPost]
  | ok res =>
      cases hcb : onUserAdded res.data parent with
      | ok parent1 =>
          rw [handleSubmit_ok_ok API_URL axiosPost onUserAdded form parent parent1 res h hcb]
          simp [Effect.isPost]
      | error thrown =>
          rw [handleSubmit_ok_throw API_URL axiosPost onUserAdded form parent res thrown h hcb]
          cases hm : serverMessage thrown with
          | ok m =>
              rw [catchClause_alert form parent _ thrown m hm]
              simp [Effect.isPost]
          | error e =>
              rw [catchClause_rethrow form parent _ thrown e hm]
              simp [Effect.isPost]

/-- C6: for every form state, `handleSubmit` first prevents the default navigation
and then sends exactly one POST, to `API_URL/users` with the body `{ name, email }`
of the current field values; when the POST succeeds with data `d` and the parent
callback returns, the callback was called exactly once, with `d`, both fields are then
set to the empty string, and no alert is shown. The callback `App` passes always
returns, so with it this holds for every successful POST. -/
theorem handleSubmit_success {π : Type} (API_URL : String) (axiosPost : Network)
    (onUserAdded : JsVal → π → Except JsVal π) (form : FormState) (parent : π)
    (app : AppState) :
    ((handleSubmit API_URL axiosPost onUserAdded form parent).effects.take 2
        = [Effect.preventDefault,
            Effect.post (API_URL ++ "/users")
              (.obj [("name", .str form.name), ("email", .str form.email)])] ∧
      (handleSubmit API_URL axiosPost onUserAdded form parent).effects.countP Effect.isPost
        = 1) ∧
    (∀ res parent1,
      axiosPost (API_URL ++ "/users") (userInput form.name form.email) = .ok res →
      onUserAdded res.data parent = .ok parent1 →
      (handleSubmit API_URL axiosPost onUserAdded form parent).effects
        = [Effect.preventDefault,
            Effect.post (API_URL ++ "/users") (userInput form.name form.email),
            Effect.onUserAdded res.data, Effect.setName "", Effect.setEmail ""] ∧
      (handleSubmit API_URL axiosPost onUserAdded form parent).effects.countP
        Effect.isNotification = 1 ∧
      (handleSubmit API_URL axiosPost onUserAdded form parent).effects.countP
        Effect.isAlert = 0 ∧
      (handleSubmit API_URL axiosPost onUserAdded form parent).form
        = { name := "", email := "" } ∧
      (handleSubmit API_URL axiosPost onUserAdded form parent).parent = parent1 ∧
      (handleSubmit API_URL axiosPost onUserAdded form parent).settled = .resolved) ∧
    (∀ res,
      axiosPost (API_URL ++ "/users") (userInput form.name form.email) = .ok res →
      handleSubmit API_URL axiosPost App.onUserAdded form app
        = { form := { name := "", email := "" }, parent := { refresh := !app.refresh },
            effects := [Effect.preventDefault,
              Effect.post (API_URL ++ "/users") (userInput form.name form.email),
              Effect.onUserAdded res.data, Effect.setName "", Effect.setEmail ""],
            settled := .resolved }) := by
  refine ⟨handleSubmit_posts_once API_URL axiosPost onUserAdded form parent, ?_, ?_⟩
  · intro res parent1 h hcb
    rw [handleSubmit_ok_ok API_URL axiosPost onUserAdded form parent parent1 res h hcb]
    simp [Effect.isNotification, Effect.isAlert]
  · intro res h
    exact handleSubmit_ok_ok API_URL axiosPost App.onUserAdded form app _ res h rfl

/-- Witness of C6: the form holding Ada, on a network where the create succeeds, under
`App`: the record is handed to the callback, the fields are cleared, the toggle
flips. -/
theorem handleSubmit_success_witness :
    netCreated ("http://localhost:5000" ++ "/users") (userInput adaForm.name adaForm.email)
        = .ok { data := adaRecord, status := 200 } ∧
      handleSubmit "http://localhost:5000" netCreated App.onUserAdded adaForm App.init
        = { form := { name := "", email := "" }, parent := { refresh := !App.init.refresh },
            effects := [Effect.preventDefault,
              Effect.post ("http://localhost:5000" ++ "/users")
                (userInput adaForm.name adaForm.email),
              Effect.onUserAdded adaRecord, Effect.setName "", Effect.setEmail ""],
            settled := .resolved } :=
  ⟨rfl, (handleSubmit_success "http://localhost:5000" netCreated App.onUserAdded adaForm
    App.init App.init).2.2 { data := adaRecord, status := 200 } rfl⟩

/-- Counterexample to C7 as stated: the create is answered 500 with the message `[]`;
the message is truthy, so it is what `alert` is given, and the text the alert shows,
the string of the empty array, is empty. -/
theorem handleSubmit_failure_alert_empty_counterexample :
    netRejectedEmpty ("http://localhost:5000" ++ "/users")
        (userInput adaForm.name adaForm.email)
        = .error { message := "Request failed with status code 500",
                   response := some { data := .obj [("message", .arr [])], status := 500 } } ∧
      (handleSubmit "http://localhost:5000" netRejectedEmpty App.onUserAdded adaForm
          App.init).effects
        = [Effect.preventDefault,
            Effect.post "http://localhost:5000/users"
              (.obj [("name", .str "Ada"), ("email", .str "ada@x.com")]),
            Effect.alert (.arr [])] ∧
      (JsVal.arr []).toText = "" ∧
      ¬ (∀ v, Effect.alert v ∈ (handleSubmit "http://localhost:5000" netRejectedEmpty
          App.onUserAdded adaForm App.init).effects → v.toText ≠ "") := by
  have he : (handleSubmit "http://localhost:5000" netRejectedEmpty App.onUserAdded adaForm
      App.init).effects
      = [Effect.preventDefault,
          Effect.post "http://localhost:5000/users"
            (.obj [("name", .str "Ada"), ("email", .str "ada@x.com")]),
          Effect.alert (.arr [])] := by
    rfl
  have ht : (JsVal.arr []).toText = "" := by
    simp [JsVal.toText, JsVal.joinText]
  refine ⟨rfl, he, ht, ?_⟩
  intro hall
  exact hall (.arr []) (by rw [he]; simp) ht

/-- C7, amended: for every form state, when the create POST fails with `err`,
`handleSubmit` shows exactly one alert; its message is the server-provided message
`err.response?.data?.message` when that is truthy and otherwise the fallback
"Error adding user"; the text of the alert is empty exactly when the server-provided
message is an array whose string is empty, so it is non-empty for every message that
is not an array; the fields are not set and keep their values, and the parent
callback is not called. -/
theorem handleSubmit_failure_alert {π : Type} (API_URL : String) (axiosPost : Network)
    (onUserAdded : JsVal → π → Except JsVal π) (form : FormState) (parent : π)
    (err : AxiosError)
    (h : axiosPost (API_URL ++ "/users") (userInput form.name form.email) = .error err) :
    serverMessage err.toJs = .ok err.serverMessage ∧
    (handleSubmit API_URL axiosPost onUserAdded form parent).effects
      = [Effect.preventDefault,
          Effect.post (API_URL ++ "/users") (userInput form.name form.email),
          Effect.alert (if err.serverMessage.truthy = true then err.serverMessage
            else .str "Error adding user")] ∧
    ((if err.serverMessage.truthy = true then err.serverMessage
        else JsVal.str "Error adding user").toText = "" ↔
      ∃ items, err.serverMessage = .arr items ∧ JsVal.joinText items = "") ∧
    ((∀ items, err.serverMessage ≠ .arr items) →
      (if err.serverMessage.truthy = true then err.serverMessage
        else JsVal.str "Error adding user").toText ≠ "") ∧
    (handleSubmit API_URL axiosPost onUserAdded form parent).effects.countP Effect.isAlert
      = 1 ∧
    (handleSubmit API_URL axiosPost onUserAdded form parent).effects.countP
      Effect.isNotification = 0 ∧
    (handleSubmit API_URL axiosPost onUserAdded form parent).effects.countP
      Effect.isSetField = 0 ∧
    (handleSubmit API_URL axiosPost onUserAdded form parent).form = form ∧
    (handleSubmit API_URL axiosPost onUserAdded form parent).parent = parent ∧
    (handleSubmit API_URL axiosPost onUserAdded form parent).settled = .resolved := by
  have hx := or_fallback_text_empty_iff err.serverMessage
  rw [handleSubmit_error API_URL axiosPost onUserAdded form parent err h]
  refine ⟨serverMessage_toJs err, rfl, hx, ?_, ?_, ?_, ?_, rfl, rfl, rfl⟩
  · intro hna ht
    obtain ⟨items, hi, _⟩ := hx.mp ht
    exact hna items hi
  · simp [Effect.isAlert]
  · simp [Effect.isNotification]
  · simp [Effect.isSetField]

/-- Witness of C7, amended: the form holding Ada, on a network where the create is
answered 500 with the message "Email taken": that message is alerted, its text is not
empty, and the form keeps Ada. -/
theorem handleSubmit_failure_alert_witness :
    netRejected ("http://localhost:5000" ++ "/users") (userInput adaForm.name adaForm.email)
        = .error { message := "Request failed with status code 500",
                   response := some { data := .obj [("message", .str "Email taken")],
                                      status := 500 } } ∧
      (handleSubmit "http://localhost:5000" netRejected App.onUserAdded adaForm
          App.init).effects
        = [Effect.preventDefault,
            Effect.post ("http://localhost:5000" ++ "/users")
              (userInput adaForm.name adaForm.email),
            Effect.alert (.str "Email taken")] ∧
      (JsVal.str "Email taken").toText ≠ "" ∧
      (handleSubmit "http://localhost:5000" netRejected App.onUserAdded adaForm
          App.init).form = adaForm :=
  ⟨rfl,
    (handleSubmit_failure_alert "http://localhost:5000" netRejected App.onUserAdded adaForm
      App.init _ rfl).2.1,
    (handleSubmit_failure_alert "http://localhost:5000" netRejected App.onUserAdded adaForm
      App.init _ rfl).2.2.2.1 (fun _ hi => JsVal.noConfusion hi),
    (handleSubmit_failure_alert "http://localhost:5000" netRejected App.onUserAdded adaForm
      App.init _ rfl).2.2.2.2.2.2.2.1⟩

/-- C9: for every form state in which `name` or `email` is the empty string, an
attempt to submit the form is blocked by the validation of the `required` inputs:
`handleSubmit` does not run, no POST is sent, and the form and the parent are as
before. -/
theorem empty_field_blocks_submit {π : Type} (typeOk : InputType → String → Bool)
    (API_URL : String) (axiosPost : Network) (onUserAdded : JsVal → π → Except JsVal π)
    (form : FormState) (parent : π) (h : form.name = "" ∨ form.email = "") :
    (requestSubmit typeOk API_URL axiosPost onUserAdded form parent).effects = [] ∧
    (requestSubmit typeOk API_URL axiosPost onUserAdded form parent).effects.countP
      Effect.isPost = 0 ∧
    (requestSubmit typeOk API_URL axiosPost onUserAdded form parent).form = form ∧
    (requestSubmit typeOk API_URL axiosPost onUserAdded form parent).parent = parent := by
  have hv : (UserForm.inputs form).all (InputEl.valid typeOk) = false := by
    rcases h with h | h <;> simp [UserForm.inputs, InputEl.valid, h]
  simp [requestSubmit, hv]

/-- Witness of C9: a form with a name and no email, on a network that would accept
the create: the attempt to submit sends nothing. -/
theorem empty_field_blocks_submit_witness :
    (({ name := "Ada", email := "" } : FormState).name = "" ∨
        ({ name := "Ada", email := "" } : FormState).email = "") ∧
      (requestSubmit anyType "http://localhost:5000" netCreated App.onUserAdded
        { name := "Ada", email := "" } App.init).effects = [] :=
  ⟨Or.inr rfl,
    (empty_field_blocks_submit anyType "http://localhost:5000" netCreated App.onUserAdded
      { name := "Ada", email := "" } App.init (Or.inr rfl)).1⟩

/-- Counterexample to C10 as stated: the POST succeeds and the callback throws a value
that carries `response.data.message`; the alert shows that message, "boom", and no
alert with the fallback message is shown. -/
theorem callback_throw_fallback_counterexample :
    netCreated ("http://localhost:5000" ++ "/users") (userInput adaForm.name adaForm.email)
        = .ok { data := adaRecord, status := 200 } ∧
      throwingCallback adaRecord ()
        = .error (.obj [("response", .obj [("data", .obj [("message", .str "boom")])])]) ∧
      (handleSubmit "http://localhost:5000" netCreated throwingCallback adaForm ()).effects
        = [Effect.preventDefault,
            Effect.post "http://localhost:5000/users"
              (.obj [("name", .str "Ada"), ("email", .str "ada@x.com")]),
            Effect.onUserAdded adaRecord, Effect.alert (.str "boom")] ∧
      Effect.alert (.str "Error adding user")
        ∉ (handleSubmit "http://localhost:5000" netCreated throwingCallback adaForm ()).effects := by
  have he : (handleSubmit "http://localhost:5000" netCreated throwingCallback adaForm ()).effects
      = [Effect.preventDefault,
          Effect.post "http://localhost:5000/users"
            (.obj [("name", .str "Ada"), ("email", .str "ada@x.com")]),
          Effect.onUserAdded adaRecord, Effect.alert (.str "boom")] := by
    rfl
  refine ⟨rfl, rfl, he, ?_⟩
  rw [he]
  simp

/-- C10, amended: when the POST succeeds and `onUserAdded` throws a value that is not
nullish, the callback has been called, the fields are not set and keep their values,
and one alert is shown whose message is the thrown value's
`response?.data?.message` when that is truthy and otherwise the fallback
"Error adding user"; the fallback it is whenever the thrown value has no `response`.
For every outcome, the fields are set (to the empty string) exactly when both the
POST and the callback complete without error. -/
theorem callback_throw_alert {π : Type} (API_URL : String) (axiosPost : Network)
    (onUserAdded : JsVal → π → Except JsVal π) (form : FormState) (parent : π) :
    (∀ res thrown,
      axiosPost (API_URL ++ "/users") (userInput form.name form.email) = .ok res →
      onUserAdded res.data parent = .error thrown →
      thrown.isNullish = false →
      (handleSubmit API_URL axiosPost onUserAdded form parent).effects
        = [Effect.preventDefault,
            Effect.post (API_URL ++ "/users") (userInput form.name form.email),
            Effect.onUserAdded res.data,
            Effect.alert (if (thrownMessage thrown).truthy = true then thrownMessage thrown
              else .str "Error adding user")] ∧
      (thrown.get "response" = .undefined →
        (handleSubmit API_URL axiosPost onUserAdded form parent).effects
          = [Effect.preventDefault,
              Effect.post (API_URL ++ "/users") (userInput form.name form.email),
              Effect.onUserAdded res.data, Effect.alert (.str "Error adding user")]) ∧
      (handleSubmit API_URL axiosPost onUserAdded form parent).form = form ∧
      (handleSubmit API_URL axiosPost onUserAdded form parent).parent = parent ∧
      (handleSubmit API_URL axiosPost onUserAdded form parent).effects.countP
        Effect.isSetField = 0) ∧
    ((handleSubmit API_URL axiosPost onUserAdded form parent).effects.any Effect.isSetField
        = true ↔
      ∃ res parent1,
        axiosPost (API_URL ++ "/users") (userInput form.name form.email) = .ok res ∧
        onUserAdded res.data parent = .ok parent1) ∧
    ((handleSubmit API_URL axiosPost onUserAdded form parent).effects.any Effect.isSetField
        = true →
      (handleSubmit API_URL axiosPost onUserAdded form parent).form
        = { name := "", email := "" }) := by
  refine ⟨?_, ?_⟩
  · intro res thrown h hcb hn
    rw [handleSubmit_ok_throw API_URL axiosPost onUserAdded form parent res thrown h hcb,
      catchClause_alert form parent _ thrown _ (serverMessage_of_not_nullish thrown hn)]
    refine ⟨rfl, ?_, rfl, rfl, ?_⟩
    · intro hr
      have hm : thrownMessage thrown = .undefined := by
        simp [thrownMessage, hr, JsVal.optMember, JsVal.isNullish]
      rw [hm]
      rfl
    · simp [Effect.isSetField]
  · cases h : axiosPost (API_URL ++ "/users") (userInput form.name form.email) with
    | error err =>
        rw [handleSubmit_error API_URL axiosPost onUserAdded form parent err h]
        simp [Effect.isSetField]
    | ok res =>
        cases hcb : onUserAdded res.data parent with
        | ok parent1 =>
            rw [handleSubmit_ok_ok API_URL axiosPost onUserAdded form parent parent1 res h hcb]
            simp [Effect.isSetField, hcb]
        | error thrown =>
            rw [handleSubmit_ok_throw API_URL axiosPost onUserAdded form parent res thrown h hcb]
            cases hm : serverMessage thrown with
            | ok m =>
                rw [catchClause_alert form parent _ thrown m hm]
                simp [Effect.isSetField, hcb]
            | error e =>
                rw [catchClause_rethrow form parent _ thrown e hm]
                simp [Effect.isSetField, hcb]

/-- Witness of C10, amended: the POST succeeds and the callback throws a value carrying
the message "boom": the form keeps Ada and "boom" is alerted. -/
theorem callback_throw_alert_witness :
    netCreated ("http://localhost:5000" ++ "/users") (userInput adaForm.name adaForm.email)
        = .ok { data := adaRecord, status := 200 } ∧
      throwingCallback adaRecord ()
        = .error (.obj [("response", .obj [("data", .obj [("message", .str "boom")])])]) ∧
      (handleSubmit "http://localhost:5000" netCreated throwingCallback adaForm ()).form
        = adaForm :=
  ⟨rfl, rfl,
    ((callback_throw_alert "http://localhost:5000" netCreated throwingCallback adaForm ()).1
      { data := adaRecord, status := 200 }
      (.obj [("response", .obj [("data", .obj [("message", .str "boom")])])])
      rfl rfl rfl).2.2.1⟩

/-! ## The refresh toggle -/

theorem listKey_flip (a : AppState) :
    App.listKey { refresh := !a.refresh } ≠ App.listKey a := by
  obtain ⟨r⟩ := a
  cases r <;> simp [App.listKey]

theorem afterNotifications_refresh (k : Nat) :
    (App.afterNotifications k).refresh = decide (k % 2 = 1) := by
  induction k with
  | zero => rfl
  | succ k ih =>
      simp only [App.afterNotifications, App.onUserAdded, App.setRefresh, ih]
      rcases Nat.mod_two_eq_zero_or_one k with h | h
      · have h1 : (k + 1) % 2 = 1 := by omega
        simp [h, h1]
      · have h1 : (k + 1) % 2 = 0 := by omega
        simp [h, h1]

/-- One event on the page either notifies the parent once and flips the toggle, or
does not notify it and leaves `App` as it was. -/
theorem uiStep_toggle (typeOk : InputType → String → Bool) (API_URL : String) (ev : UiEvent)
    (s : UiState) :
    ((uiStep typeOk API_URL ev s).2.countP Effect.isNotification = 0 ∧
      (uiStep typeOk API_URL ev s).1.app = s.app) ∨
    ((uiStep typeOk API_URL ev s).2.countP Effect.isNotification = 1 ∧
      (uiStep typeOk API_URL ev s).1.app = { refresh := !s.app.refresh }) := by
  cases ev with
  | changeName v => exact Or.inl ⟨by simp [uiStep, Effect.isNotification], rfl⟩
  | changeEmail v => exact Or.inl ⟨by simp [uiStep, Effect.isNotification], rfl⟩
  | submit axiosPost =>
      simp only [uiStep, requestSubmit]
      split
      · cases h : axiosPost (API_URL ++ "/users") (userInput s.form.name s.form.email) with
        | error err =>
            rw [handleSubmit_error API_URL axiosPost App.onUserAdded s.form s.app err h]
            exact Or.inl ⟨by simp [Effect.isNotification], rfl⟩
        | ok res =>
            rw [handleSubmit_ok_ok API_URL axiosPost App.onUserAdded s.form s.app _ res h rfl]
            exact Or.inr ⟨by simp [Effect.isNotification], rfl⟩
      · exact Or.inl ⟨by simp, rfl⟩

theorem uiRun_refresh (typeOk : InputType → String → Bool) (API_URL : String)
    (evs : List UiEvent) (s : UiState) :
    (uiRun typeOk API_URL evs s).1.app.refresh
      = xor s.app.refresh
          (decide ((uiRun typeOk API_URL evs s).2.countP Effect.isNotification % 2 = 1)) := by
  induction evs generalizing s with
  | nil => simp [uiRun]
  | cons ev rest ih =>
      simp only [uiRun, List.countP_append]
      rw [ih]
      rcases uiStep_toggle typeOk API_URL ev s with ⟨hc, ha⟩ | ⟨hc, ha⟩
      · rw [hc, ha]
        simp
      · rw [hc, ha]
        rcases Nat.mod_two_eq_zero_or_one
          ((uiRun typeOk API_URL rest (uiStep typeOk API_URL ev s).1).2.countP
            Effect.isNotification) with h | h
        · have h1 : (1 + (uiRun typeOk API_URL rest (uiStep typeOk API_URL ev s).1).2.countP
              Effect.isNotification) % 2 = 1 := by omega
          simp [h, h1]
        · have h1 : (1 + (uiRun typeOk API_URL rest (uiStep typeOk API_URL ev s).1).2.countP
              Effect.isNotification) % 2 = 0 := by omega
          simp [h, h1]

/-- C8: the refresh toggle of `App` starts false; every successful-add notification
negates it, so the key of the list after the notification differs from the key
before; after `k` notifications it is true exactly when `k` is odd, and so it is
after any run of events on the page that notified `k` times; an event that does not
notify leaves it unchanged, and an event that notifies does so once and flips it. -/
theorem refresh_toggle (typeOk : InputType → String → Bool) (API_URL : String)
    (evs : List UiEvent) (ev : UiEvent) (s : UiState) (k : Nat) (d : JsVal) (a : AppState) :
    App.init.refresh = false ∧
    App.onUserAdded d a = .ok { refresh := !a.refresh } ∧
    App.listKey { refresh := !a.refresh } ≠ App.listKey a ∧
    ((App.afterNotifications k).refresh = true ↔ k % 2 = 1) ∧
    ((uiRun typeOk API_URL evs UiState.init).1.app.refresh = true ↔
      (uiRun typeOk API_URL evs UiState.init).2.countP Effect.isNotification % 2 = 1) ∧
    ((uiStep typeOk API_URL ev s).2.countP Effect.isNotification = 0 →
      (uiStep typeOk API_URL ev s).1.app = s.app) ∧
    ((uiStep typeOk API_URL ev s).2.countP Effect.isNotification ≠ 0 →
      (uiStep typeOk API_URL ev s).2.countP Effect.isNotification = 1 ∧
      (uiStep typeOk API_URL ev s).1.app.refresh = !s.app.refresh ∧
      App.listKey (uiStep typeOk API_URL ev s).1.app ≠ App.listKey s.app) := by
  refine ⟨rfl, rfl, listKey_flip a, ?_, ?_, ?_, ?_⟩
  · rw [afterNotifications_refresh]
    simp
  · rw [uiRun_refresh]
    simp [UiState.init, App.init]
  · intro h0
    rcases uiStep_toggle typeOk API_URL ev s with ⟨_, ha⟩ | ⟨hc, _⟩
    · exact ha
    · omega
  · intro h0
    rcases uiStep_toggle typeOk API_URL ev s with ⟨hc, _⟩ | ⟨hc, ha⟩
    · exact absurd hc h0
    · refine ⟨hc, by rw [ha], ?_⟩
      rw [ha]
      exact listKey_flip s.app

/-- Witness of C8: typing a name does not notify and leaves the toggle; a submit of
Ada that succeeds notifies once and flips it. -/
theorem refresh_toggle_witness :
    ((uiStep anyType "http://localhost:5000" (.changeName "Ada") UiState.init).2.countP
        Effect.isNotification = 0 ∧
      (uiStep anyType "http://localhost:5000" (.changeName "Ada") UiState.init).1.app
        = UiState.init.app) ∧
    ((uiStep anyType "http://localhost:5000" (.submit netCreated)
        { app := App.init, form := adaForm }).2.countP Effect.isNotification ≠ 0 ∧
      (uiStep anyType "http://localhost:5000" (.submit netCreated)
        { app := App.init, form := adaForm }).1.app.refresh = !App.init.refresh) :=
  ⟨⟨rfl, (refresh_toggle anyType "http://localhost:5000" [] (.changeName "Ada") UiState.init
      0 .undefined App.init).2.2.2.2.2.1 rfl⟩,
   ⟨by decide, ((refresh_toggle anyType "http://localhost:5000" [] (.submit netCreated)
      { app := App.init, form := adaForm } 0 .undefined App.init).2.2.2.2.2.2
      (by decide)).2.1⟩⟩

end PrismaMernMini
